import Mathlib

/-!
Shallow embedding of the tmdb_etl acquisition and loading core
(src/etl/tmdb_client.py, src/etl/strategies/*.py, src/etl/base_loader.py,
src/etl/loaders/series_loader.py), together with theorems settling the
specification claims about it.

Conventions used throughout:
- Wall-clock time is modelled by the rationals (seconds).
- A JSON payload is abstracted by a natural number; a page of a paginated
  listing endpoint is a record holding its `total_pages` field and the list
  of item ids in its `results` field.
- The network is a pure oracle: a function from request coordinates to the
  response the server gives, so that every run of an embedded component is a
  deterministic function of the oracle and its arguments.
-/

namespace TmdbEtl

/-! ## AsyncTMDBClient constants (src/etl/tmdb_client.py, lines 29-31) -/

def MAX_CONCURRENT : Nat := 18

def REQUESTS_PER_SECOND : Nat := 45

/-! ## The rate gate: AsyncTMDBClient._rate_limit (tmdb_client.py, lines 49-63)

The Python method reads the clock (`now`), filters `self.request_times` down
to the timestamps within the trailing second, and if the filtered list has
reached `REQUESTS_PER_SECOND` entries it sleeps until the oldest kept
timestamp is one second old, then REPLACES the whole list by the empty list;
in every case it finally appends `now` (the time read before any sleep).
The value returned to the caller is the moment the coroutine resumes, i.e.
`now` plus the sleep, which we call the grant time of the acquisition.

`rateLimitStep state now = (grantTime, newState)`. -/

def rateLimitStep (state : List ℚ) (now : ℚ) : ℚ × List ℚ :=
  let filtered := state.filter (fun t => now - t < 1)
  if REQUESTS_PER_SECOND ≤ filtered.length then
    let sleepTime := 1 - (now - filtered.headD 0)
    (now + (if 0 < sleepTime then sleepTime else 0), [now])
  else
    (now, filtered ++ [now])

/-- Run the gate over a list of acquisition start times, returning the list
of grant times. -/
def runGateFrom (state : List ℚ) : List ℚ → List ℚ
  | [] => []
  | a :: rest =>
    let g := rateLimitStep state a
    g.1 :: runGateFrom g.2 rest

/-- A list of acquisition start times is realizable by one sequential caller
when each call starts no earlier than the grant of the previous call (the
caller only issues the next request after the gate released the previous
one). -/
def seqRealizable (prevGrant : ℚ) (state : List ℚ) : List ℚ → Bool
  | [] => true
  | a :: rest =>
    if a < prevGrant then false
    else
      let g := rateLimitStep state a
      seqRealizable g.1 g.2 rest

/-- Number of grant times falling in the trailing 1-second window ending at
`w`, using the same window convention as the source (`now - t < 1.0`). -/
def grantsInWindow (grants : List ℚ) (w : ℚ) : Nat :=
  (grants.filter (fun g => w - g < 1 ∧ g ≤ w)).length

/-- The arrival schedule that defeats the gate: 45 calls at time 0, one call
at time 1/2 (which sleeps until time 1 and then erases the whole window),
45 calls at time 1, 45 calls at time 3/2. -/
def burstTrace : List ℚ :=
  List.replicate 45 0 ++ [1/2] ++ List.replicate 45 1 ++ List.replicate 45 (3/2)

/-! ## The fetch client: AsyncTMDBClient._request (tmdb_client.py, lines 65-95)

One logical request is played against the finite script of responses the
server would give to the successive HTTP GETs. The body classifies:
HTTP 200 returns the payload; HTTP 429 reads the Retry-After header
(defaulting to 2 when absent), sleeps that long and recurses; HTTP 404
returns None; any other status returns None; a raised network/timeout
exception is caught and returns None. -/

inductive Resp where
  | ok (payload : Nat)
  | notFound
  | rateLimited (retryAfter : Option Nat)
  | httpError (status : Nat)
  | netError
deriving DecidableEq

/-- The observable outcome of one `_request` call: how many HTTP attempts
were made, the total time slept in 429 backoff, and the returned value
(`none` models Python `None`). -/
structure RequestResult where
  attempts : Nat
  slept : Nat
  payload : Option Nat
deriving DecidableEq

/-- `_request` against a script of successive server responses. An empty
script models a server that never answers again; the theorems only invoke
scripts that contain a non-429 response. -/
def requestRun : List Resp → RequestResult
  | [] => ⟨0, 0, none⟩
  | r :: rest =>
    match r with
    | .ok p => ⟨1, 0, some p⟩
    | .notFound => ⟨1, 0, none⟩
    | .httpError _ => ⟨1, 0, none⟩
    | .netError => ⟨1, 0, none⟩
    | .rateLimited retryAfter =>
      let res := requestRun rest
      ⟨res.attempts + 1, res.slept + retryAfter.getD 2, res.payload⟩

/-- How the body of `_request` resolves a single non-429 response. -/
def classifyResp : Resp → Option Nat
  | .ok p => some p
  | _ => none

/-! ## AsyncMovieDetailsLoader.transform (tmdb_client.py, lines 236-317)

The transform walks the fetched movie dicts once and appends to five row
lists. A movie dict is modelled by a record holding exactly the fields the
transform reads; an absent or JSON-null field is `none`. -/

/-- Python truthiness of an optional integer: `None` and `0` are falsy. -/
def natTruthy : Option Nat → Bool
  | some n => n != 0
  | none => false

/-- Python truthiness of an optional string: `None` and the empty string are
falsy. -/
def strTruthy : Option String → Bool
  | some s => !s.isEmpty
  | none => false

/-- Python `a or b` on optional strings, as used for the translation title
fallback `data.get("title") or movie.get("original_title")`. -/
def pyOrStr (a b : Option String) : Option String :=
  if strTruthy a then a else b

structure MovieTranslationData where
  title : Option String
  overview : Option String
deriving DecidableEq

structure MovieTranslation where
  iso_639_1 : Option String
  data : MovieTranslationData
deriving DecidableEq

structure MovieGenre where
  name : String
deriving DecidableEq

structure MovieCountry where
  iso_3166_1 : String
deriving DecidableEq

/-- The fields of a fetched movie dict that `transform` reads. -/
structure Movie where
  id : Nat
  original_title : Option String
  poster_path : Option String
  release_date : Option String
  budget : Option Nat
  revenue : Option Nat
  runtime : Option Nat
  translations : List MovieTranslation
  genres : List MovieGenre
  production_countries : List MovieCountry
deriving DecidableEq

/-- A tuple appended to `content_data` (tmdb_client.py, lines 253-263). -/
structure ContentRow where
  id : Nat
  original_title : String
  content_type : String
  poster_url : Option String
  release_date : Option String
  status : String
  age_rating : Option Nat
  budget : Option Nat
  box_office : Option Nat
deriving DecidableEq

/-- A tuple appended to `movie_details_data` (lines 266-273). -/
structure MovieDetailsRow where
  content_id : Nat
  duration_minutes : Nat
  cinema_release_date : Option String
  digital_release_date : Option String
deriving DecidableEq

/-- A tuple appended to `translations_data` (lines 276-290). -/
structure TranslationRow where
  content_id : Nat
  locale : String
  title : Option String
  description : Option String
  plot_summary : Option String
deriving DecidableEq

/-- A tuple appended to `genres_data` (lines 293-300). -/
structure GenreRow where
  content_id : Nat
  genre_id : Nat
  display_order : Nat
deriving DecidableEq

/-- A tuple appended to `countries_data` (lines 303-309). -/
structure CountryRow where
  content_id : Nat
  country_id : Nat
deriving DecidableEq

/-- The dict returned by `AsyncMovieDetailsLoader.transform`. -/
structure MovieRowSet where
  content : List ContentRow
  movie_details : List MovieDetailsRow
  translations : List TranslationRow
  genres : List GenreRow
  countries : List CountryRow
deriving DecidableEq

def emptyMovieRowSet : MovieRowSet := ⟨[], [], [], [], []⟩

/-- The `content` tuple built for one movie (lines 253-263). -/
def contentRowOf (m : Movie) : ContentRow :=
  { id := m.id
    original_title := m.original_title.getD "Unknown"
    content_type := "movie"
    poster_url := m.poster_path
    release_date := m.release_date
    status := "published"
    age_rating := none
    budget := m.budget
    box_office := m.revenue }

/-- The `movie_details` tuples built for one movie: one tuple when
`movie.get("runtime")` is truthy, none otherwise (lines 266-273). -/
def movieDetailsRowsOf (m : Movie) : List MovieDetailsRow :=
  if natTruthy m.runtime then
    [{ content_id := m.id
       duration_minutes := m.runtime.getD 0
       cinema_release_date := m.release_date
       digital_release_date := none }]
  else []

/-- The `translations` tuples built for one movie (lines 276-290): one tuple
per translation whose language code is among the target locales. -/
def translationRowsOf (locales : List String) (m : Movie) : List TranslationRow :=
  m.translations.filterMap fun tr =>
    let title := pyOrStr tr.data.title m.original_title
    let localeOk : Bool := match tr.iso_639_1 with
      | some code => locales.contains code
      | none => false
    if localeOk then
      some { content_id := m.id
             locale := tr.iso_639_1.getD ""
             title := title
             description := tr.data.overview
             plot_summary := none }
    else none

/-- The genre-name normalisation `genre["name"].lower().replace(" ", "_")`
(line 294). -/
def normalizeGenreName (s : String) : String :=
  (s.toLower).replace " " "_"

/-- The `genres` tuples built for one movie (lines 293-300): one tuple per
genre found in the reference map, carrying its position index. -/
def genreRowsOf (genreMap : String → Option Nat) (m : Movie) : List GenreRow :=
  m.genres.enum.filterMap fun ig =>
    match genreMap (normalizeGenreName ig.2.name) with
    | some gid => some { content_id := m.id, genre_id := gid, display_order := ig.1 }
    | none => none

/-- The `countries` tuples built for one movie (lines 303-309). -/
def countryRowsOf (countryMap : String → Option Nat) (m : Movie) : List CountryRow :=
  m.production_countries.filterMap fun c =>
    match countryMap c.iso_3166_1 with
    | some cid => some { content_id := m.id, country_id := cid }
    | none => none

/-- One iteration of the `for movie in raw_data` loop of `transform`. -/
def transformStep (genreMap countryMap : String → Option Nat) (locales : List String)
    (acc : MovieRowSet) (m : Movie) : MovieRowSet :=
  { content := acc.content ++ [contentRowOf m]
    movie_details := acc.movie_details ++ movieDetailsRowsOf m
    translations := acc.translations ++ translationRowsOf locales m
    genres := acc.genres ++ genreRowsOf genreMap m
    countries := acc.countries ++ countryRowsOf countryMap m }

/-- `AsyncMovieDetailsLoader.transform` (tmdb_client.py, lines 236-317). -/
def transform (genreMap countryMap : String → Option Nat) (locales : List String)
    (raw_data : List Movie) : MovieRowSet :=
  raw_data.foldl (transformStep genreMap countryMap locales) emptyMovieRowSet

/-! ## Discovery strategies

Shared upstream constants (discover_strategy.py lines 26-27,
discover_segmented_strategy.py lines 31-32). A page of the listing endpoint
is its `total_pages` field plus the ids of the movies in its `results`
array (the transform only ever reads `movie["id"]` during discovery).
A listing oracle maps a page number (and, for the segmented strategy, a
year) to the page the server returns, or `none` when the fetch failed. -/

def MAX_PAGES : Nat := 500

def ITEMS_PER_PAGE : Nat := 20

structure Page where
  total_pages : Nat
  results : List Nat
deriving DecidableEq

/-! ### DiscoverStrategy (discover_strategy.py)

`__init__` clamps `target_count` to `MAX_PAGES * ITEMS_PER_PAGE` (line 50);
`get_movie_ids` (lines 104-146) fetches pages `1..pages_needed`, then walks
the returned pages appending ids, breaking out of the item loop and the page
loop as soon as `target_count` ids are collected, and finally truncates. -/

/-- The clamp `min(target_count, MAX_PAGES * ITEMS_PER_PAGE)` applied by
`DiscoverStrategy.__init__` (line 50). -/
def directTargetCount (target_count : Nat) : Nat :=
  min target_count (MAX_PAGES * ITEMS_PER_PAGE)

/-- `pages_needed` of `DiscoverStrategy.get_movie_ids` (lines 111-114): the
number of page-fetch tasks issued. -/
def directPagesFetched (target_count : Nat) : Nat :=
  min ((directTargetCount target_count + ITEMS_PER_PAGE - 1) / ITEMS_PER_PAGE) MAX_PAGES

/-- The inner `for movie in result["results"]` loop (lines 137-140): append
each id and break as soon as the accumulated list reaches the target. -/
def directCollectItems (target : Nat) (acc : List Nat) : List Nat → List Nat
  | [] => acc
  | m :: rest =>
    let acc2 := acc ++ [m]
    if target ≤ acc2.length then acc2 else directCollectItems target acc2 rest

/-- The outer `for result in results` loop (lines 135-143): skip failed
pages, collect from successful ones, break once the target is reached. -/
def directCollectPages (target : Nat) (acc : List Nat) : List (Option Page) → List Nat
  | [] => acc
  | p :: rest =>
    let acc2 := match p with
      | some page => directCollectItems target acc page.results
      | none => acc
    if target ≤ acc2.length then acc2 else directCollectPages target acc2 rest

/-- `DiscoverStrategy.get_movie_ids` (lines 104-146) against a listing
oracle. -/
def DiscoverStrategy.get_movie_ids (api : Nat → Option Page) (target_count : Nat) :
    List Nat :=
  let target := directTargetCount target_count
  let pagesNeeded := directPagesFetched target_count
  let results := (List.range' 1 pagesNeeded).map api
  (directCollectPages target [] results).take target

/-! ### DiscoverSegmentedStrategy (discover_segmented_strategy.py)

The year oracle maps `(year, page)` to the page the discover endpoint
returns for that year filter. The process-wide seen-id set (line 69) is
threaded through as a list. -/

/-- `_get_year_segments` (lines 71-73): years from `year_to` down to
`year_from`, newest first. -/
def getYearSegments (year_from year_to : Nat) : List Nat :=
  (List.range' year_from (year_to + 1 - year_from)).reverse

/-- The inner `for movie in page_data["results"]` loop of `_fetch_year`
(lines 157-166): append an id only when unseen, record it as seen, and
break as soon as the year list reaches `max_per_year`. Returns
`(seen, year_ids)`. -/
def segCollectItems (maxPer : Nat) (seen acc : List Nat) :
    List Nat → List Nat × List Nat
  | [] => (seen, acc)
  | m :: rest =>
    let st :=
      if m ∈ seen then (seen, acc) else (m :: seen, acc ++ [m])
    if maxPer ≤ st.2.length then st else segCollectItems maxPer st.1 st.2 rest

/-- The outer `for page_data in all_pages` loop of `_fetch_year`
(lines 155-169). -/
def segCollectPages (maxPer : Nat) (seen acc : List Nat) :
    List Page → List Nat × List Nat
  | [] => (seen, acc)
  | p :: rest =>
    let st := segCollectItems maxPer seen acc p.results
    if maxPer ≤ st.2.length then st else segCollectPages maxPer st.1 st.2 rest

/-- `DiscoverSegmentedStrategy._fetch_year` (lines 114-171): fetch page 1 to
learn the page count, fetch the further pages needed for the per-year
budget, then collect ids with dedup against the seen set. Returns the
updated seen set and the ids contributed by this year. -/
def fetchYear (api : Nat → Nat → Option Page) (seen : List Nat)
    (year max_per_year : Nat) : List Nat × List Nat :=
  match api year 1 with
  | none => (seen, [])
  | some first_page =>
    let total_pages := min first_page.total_pages MAX_PAGES
    let pages_needed :=
      min ((max_per_year + ITEMS_PER_PAGE - 1) / ITEMS_PER_PAGE) total_pages
    let all_pages :=
      if 1 < pages_needed then
        first_page :: (List.range' 2 (pages_needed - 1)).filterMap (fun p => api year p)
      else [first_page]
    segCollectPages max_per_year seen [] all_pages

/-- Correctness invariant of the dedup collectors, relating the incoming
seen-set and accumulator `(seen, acc)` to the outgoing state `st`: the
accumulated ids are distinct, all recorded as seen, the seen set only
grows, and every freshly accumulated id was not seen on entry. -/
def SegInv (seen acc : List Nat) (st : List Nat × List Nat) : Prop :=
  st.2.Nodup ∧ (∀ a ∈ st.2, a ∈ st.1) ∧ (∀ s ∈ seen, s ∈ st.1) ∧
    (∀ a ∈ st.2, a ∈ acc ∨ a ∉ seen)

/-- The `for year in years` loop of `get_movie_ids` (lines 193-205): stop
once the global target is reached, otherwise fetch the year with budget
`min(movies_per_year, target_count - len(movie_ids))` and extend. -/
def segLoop (api : Nat → Nat → Option Page) (target movies_per_year : Nat)
    (seen acc : List Nat) : List Nat → List Nat
  | [] => acc
  | year :: rest =>
    if target ≤ acc.length then acc
    else
      let st := fetchYear api seen year (min movies_per_year (target - acc.length))
      segLoop api target movies_per_year st.1 (acc ++ st.2) rest

/-- `DiscoverSegmentedStrategy.get_movie_ids` (lines 173-208): the fair
per-year share `movies_per_year = ceil(target_count / len(years))` is
computed once, before the loop (line 189), and the result is truncated to
`target_count` (line 208). -/
def DiscoverSegmentedStrategy.get_movie_ids (api : Nat → Nat → Option Page)
    (target_count year_from year_to : Nat) : List Nat :=
  let years := getYearSegments year_from year_to
  let movies_per_year := (target_count + years.length - 1) / years.length
  (segLoop api target_count movies_per_year [] [] years).take target_count

/-! ### SeriesDiscoverStrategy.get_series_ids (series_discover_strategy.py,
lines 49-82)

Pages `1..pages_needed` are fetched in groups of at most 50 tasks; after
each group the ids of its successful pages are appended and the loop breaks
once the target is reached; the final list is truncated. -/

/-- Split the page numbers into the groups gathered together (the `tasks`
buffer flushed at 50 tasks or at the last page). -/
def seriesGroupsGo (groupSize : Nat) (cur : List Nat) : List Nat → List (List Nat)
  | [] => if cur.isEmpty then [] else [cur]
  | p :: ps =>
    let cur2 := cur ++ [p]
    if groupSize ≤ cur2.length then cur2 :: seriesGroupsGo groupSize [] ps
    else seriesGroupsGo groupSize cur2 ps

/-- The grouped gather loop of `get_series_ids`: extend with every id of the
group pages, then break once the target is reached. -/
def seriesCollectGroups (api : Nat → Option Page) (target : Nat) (acc : List Nat) :
    List (List Nat) → List Nat
  | [] => acc
  | g :: gs =>
    let acc2 := acc ++ (g.filterMap api).flatMap Page.results
    if target ≤ acc2.length then acc2 else seriesCollectGroups api target acc2 gs

/-- `SeriesDiscoverStrategy.get_series_ids` (lines 49-82). The class sets
`max_pages = 500` and `results_per_page = 20` (lines 46-47); the target is
not clamped. -/
def SeriesDiscoverStrategy.get_series_ids (api : Nat → Option Page)
    (target_count : Nat) : List Nat :=
  let pagesNeeded := min ((target_count + ITEMS_PER_PAGE - 1) / ITEMS_PER_PAGE) MAX_PAGES
  let groups := seriesGroupsGo 50 [] (List.range' 1 pagesNeeded)
  (seriesCollectGroups api target_count [] groups).take target_count

/-! ### ExportStrategy (export_strategy.py)

A parsed export line is either a malformed line (`none`, skipped) or an
item with the fields the filters read; popularity is a rational since the
source field is a JSON number. -/

structure ExportItem where
  id : Nat
  adult : Bool
  video : Bool
  popularity : ℚ
deriving DecidableEq

/-- The per-line filter of `_parse_export` (export_strategy.py,
lines 131-144): drop adult when excluded, drop video when excluded, drop
low popularity. -/
def exportLineKeep (min_popularity : ℚ) (exclude_adult exclude_video : Bool)
    (it : ExportItem) : Bool :=
  if exclude_adult && it.adult then false
  else if exclude_video && it.video then false
  else decide (min_popularity ≤ it.popularity)

/-- `_parse_export` over the decoded lines: malformed lines are skipped,
surviving items are kept in file order. -/
def parseExport (min_popularity : ℚ) (exclude_adult exclude_video : Bool)
    (lines : List (Option ExportItem)) : List ExportItem :=
  (lines.filterMap id).filter (exportLineKeep min_popularity exclude_adult exclude_video)

/-- `ExportStrategy.get_movie_ids` (lines 150-173): parse and filter, sort
by popularity descending (Python stable sort with `reverse=True`), truncate
to `target_count`, extract ids. -/
def ExportStrategy.get_movie_ids (target_count : Nat) (min_popularity : ℚ)
    (exclude_adult exclude_video : Bool) (lines : List (Option ExportItem)) :
    List Nat :=
  let items := parseExport min_popularity exclude_adult exclude_video lines
  let sorted := items.mergeSort (fun a b => decide (b.popularity ≤ a.popularity))
  (sorted.take target_count).map ExportItem.id

/-! ## BaseLoader transaction semantics (base_loader.py, lines 25-41, 100-126)

`run` executes the whole extract/transform/load pipeline inside `with self:`
on a single connection; `__exit__` commits the transaction when the body
finished without an exception and rolls it back otherwise. The database is
modelled as the list of committed writes; the body is modelled by the
outcome of each chunk execution of each table, in order: a chunk either
appends its writes to the uncommitted transaction or raises. -/

/-- The writes of a successful chunk outcome, `none` for a raised one. -/
def okWrites {α : Type} : Except Unit (List α) → Option (List α)
  | .ok ws => some ws
  | .error _ => none

/-- Run a list of chunk (or table) outcomes sequentially inside the open
transaction: stop at the first raised exception, otherwise accumulate the
uncommitted writes in order. -/
def runBatches {α : Type} : List (Except Unit (List α)) → Except Unit (List α)
  | [] => .ok []
  | c :: rest =>
    match c with
    | .error e => .error e
    | .ok ws =>
      match runBatches rest with
      | .error e => .error e
      | .ok ws2 => .ok (ws ++ ws2)

/-- `BaseLoader.__exit__` (lines 31-41): commit the uncommitted writes when
the body succeeded, roll everything back when it raised. -/
def loaderExit {α : Type} (db : List α) : Except Unit (List α) → List α
  | .ok ws => db ++ ws
  | .error _ => db

/-- One loader invocation over its tables (each table being its list of
chunk outcomes, in load order): the body loads every chunk of every table
in one transaction, and `__exit__` settles it. Returns the committed
database. -/
def loaderRun {α : Type} (db : List α) (tables : List (List (Except Unit (List α)))) :
    List α :=
  loaderExit db (runBatches (tables.map runBatches))

/-! ## SeriesLoader._load_all_tables, episode stage (series_loader.py,
lines 466-530)

`season_id_map` is rebuilt from the seasons table
(`SELECT id, content_id, season_number FROM content_service.seasons`,
lines 470-477) as a dict from the natural key `(content_id, season_number)`
to the generated surrogate `season_id`; it is modelled as an association
list queried with Python `dict.get`. An episode tuple produced by
`transform` (lines 258-264) carries its parent natural key. -/

/-- An entry of `data["episodes"]` (series_loader.py, lines 258-264). -/
structure EpisodeRow where
  content_id : Nat
  season_number : Nat
  episode_number : Nat
  runtime : Option Nat
  air_date : Option String
deriving DecidableEq

/-- A tuple of `episodes_with_season_ids` as executed against the episodes
upsert (lines 485-487). -/
structure EpisodeInsertRow where
  season_id : Nat
  episode_number : Nat
  duration_minutes : Option Nat
  air_date : Option String
deriving DecidableEq

/-- `season_id_map.get((content_id, season_number))`. -/
def lookupSeasonId (season_id_map : List ((Nat × Nat) × Nat))
    (content_id season_number : Nat) : Option Nat :=
  List.lookup (content_id, season_number) season_id_map

/-- The rebinding loop (lines 480-487): a child row is emitted only when
`season_id = season_id_map.get(...)` is truthy (`if season_id:` — a missing
key gives `None`, both `None` and `0` are falsy), carrying the generated
parent key; rows whose parent lookup fails are skipped. -/
def episodesWithSeasonIds (season_id_map : List ((Nat × Nat) × Nat))
    (episodes : List EpisodeRow) : List EpisodeInsertRow :=
  episodes.filterMap fun r =>
    let season_id := lookupSeasonId season_id_map r.content_id r.season_number
    if natTruthy season_id then
      some { season_id := season_id.getD 0
             episode_number := r.episode_number
             duration_minutes := r.runtime
             air_date := r.air_date }
    else none

/-- The number of episode rows dropped by the rebinding loop: the input rows
minus the rows handed to the insert (the loader prints both list lengths,
lines 467 and 515). -/
def episodeDropCount (season_id_map : List ((Nat × Nat) × Nat))
    (episodes : List EpisodeRow) : Nat :=
  episodes.length - (episodesWithSeasonIds season_id_map episodes).length

/-! ## Concrete instances used by the scenario claims -/

/-- A year oracle realising the two-partition scenario: year 2021 has 500
pages of 20 fresh ids each (ids 2000, 2001, …), year 2020 has only 30
entities (a full first page, ids 1000-1019, and a half second page,
ids 1020-1029, with `total_pages = 2`). -/
def apiTwoYears (year page : Nat) : Option Page :=
  if year = 2021 then some ⟨500, List.range' (2000 + (page - 1) * 20) 20⟩
  else if year = 2020 then
    if page = 1 then some ⟨2, List.range' 1000 20⟩
    else if page = 2 then some ⟨2, List.range' 1020 10⟩
    else none
  else none

/-- A generated-key map in which season 99 of content 5 is absent (that
season failed to insert), while seasons 1 and 2 of content 5 are present. -/
def season99Map : List ((Nat × Nat) × Nat) := [((5, 1), 101), ((5, 2), 102)]

/-- Two episode rows: one under the existing season (5, 1) and one under the
missing season (5, 99). -/
def season99Episodes : List EpisodeRow :=
  [{ content_id := 5, season_number := 1, episode_number := 1,
     runtime := some 42, air_date := none },
   { content_id := 5, season_number := 99, episode_number := 3,
     runtime := none, air_date := none }]

/-! # Theorems -/

/-! ## Rate gate (claim C1) -/

set_option maxRecDepth 100000 in
/-- C1: the rate invariant FAILS on the code. The arrival schedule
`burstTrace` is realizable by a single sequential caller, yet the trailing
1-second window ending at time 3/2 contains 90 granted acquisitions, twice
the `REQUESTS_PER_SECOND = 45` ceiling. The cause: after a full-window
sleep, `_rate_limit` does not retry the check; it erases the entire
timestamp list and records the pre-sleep arrival time, so the next 45
callers pass immediately regardless of how recently the previous 45 grants
happened. -/
theorem rate_gate_window_violation :
    seqRealizable 0 [] burstTrace = true ∧
    grantsInWindow (runGateFrom [] burstTrace) (3 / 2) = 90 ∧
    REQUESTS_PER_SECOND < grantsInWindow (runGateFrom [] burstTrace) (3 / 2) := by
  with_unfolding_all decide

/-! ## Fetch client (claims C4 and C5) -/

/-- C4, counterexample: a network/timeout error is NOT classified and
retried with exponential backoff. On a script whose first response is a
network error and whose second would succeed, `_request` makes exactly one
attempt, sleeps 0 seconds, and returns `None` — while the same script with
the error removed succeeds, so one retry would have recovered the item. -/
theorem request_net_error_not_retried :
    requestRun [Resp.netError, Resp.ok 7] = ⟨1, 0, none⟩ ∧
    requestRun [Resp.ok 7] = ⟨1, 0, some 7⟩ := by decide

/-- C4, amended: a fetch that fails with a network/timeout error is caught
by the `except` clause and immediately resolves to a dropped item (`None`),
with no retry, no backoff and no error classification, whatever responses
the server would have given next. -/
theorem request_net_error_dropped_immediately (rest : List Resp) :
    requestRun (Resp.netError :: rest) = ⟨1, 0, none⟩ := rfl

/-- C5: on HTTP 429 the client sleeps for the Retry-After duration
(defaulting to 2 when the header is absent) and retries; this repeats for
ANY number of consecutive 429 responses (no retry cap), and the call
resolves exactly as the first non-429 response dictates — success on 200,
`None` on a non-retriable failure — never surfacing the throttling itself
as a failure. -/
theorem request_429_always_retried (ras : List (Option Nat)) (r : Resp)
    (rest : List Resp) (h : ∀ retryAfter, r ≠ Resp.rateLimited retryAfter) :
    requestRun (ras.map Resp.rateLimited ++ r :: rest) =
      ⟨ras.length + 1, (ras.map (fun ra => ra.getD 2)).sum, classifyResp r⟩ := by
  induction ras with
  | nil =>
    cases r with
    | rateLimited ra => exact absurd rfl (h ra)
    | ok p => rfl
    | notFound => rfl
    | httpError s => rfl
    | netError => rfl
  | cons a t ih =>
    simp only [List.map_cons, List.cons_append, requestRun, List.append_eq, ih,
      List.length_cons, List.sum_cons, RequestResult.mk.injEq, true_and, and_true]
    omega

/-- C5, witness: two 429 responses (one without a Retry-After header, one
with Retry-After 5) followed by a 200 yield three attempts, 2 + 5 seconds
slept, and the successful payload. -/
theorem request_429_always_retried_witness :
    requestRun [Resp.rateLimited none, Resp.rateLimited (some 5), Resp.ok 7] =
      ⟨3, 7, some 7⟩ :=
  (request_429_always_retried [none, some 5] (.ok 7) []
    (fun _ h => Resp.noConfusion h)).trans (by decide)

/-! ## Movie transform (claim C10) -/

theorem transform_content_spec (gm cm : String → Option Nat) (loc : List String)
    (acc : MovieRowSet) (ms : List Movie) :
    (ms.foldl (transformStep gm cm loc) acc).content =
      acc.content ++ ms.map contentRowOf := by
  induction ms generalizing acc with
  | nil => simp
  | cons m t ih => simp [transformStep, ih]

theorem transform_details_spec (gm cm : String → Option Nat) (loc : List String)
    (acc : MovieRowSet) (ms : List Movie) :
    (ms.foldl (transformStep gm cm loc) acc).movie_details =
      acc.movie_details ++ ms.flatMap movieDetailsRowsOf := by
  induction ms generalizing acc with
  | nil => simp
  | cons m t ih => simp [transformStep, ih]

theorem flatMap_movieDetailsRowsOf (ms : List Movie) :
    ms.flatMap movieDetailsRowsOf =
      (ms.filter (fun m => natTruthy m.runtime)).map
        (fun m => { content_id := m.id, duration_minutes := m.runtime.getD 0,
                    cinema_release_date := m.release_date,
                    digital_release_date := none }) := by
  induction ms with
  | nil => rfl
  | cons m t ih =>
    by_cases h : natTruthy m.runtime = true <;>
      simp [movieDetailsRowsOf, h, List.filter_cons, ih]

/-- C10: the transform emits the `content` tuple for every fetched movie,
in input order, but emits a `movie_details` tuple exactly for the movies
whose `runtime` field is truthy; a movie whose runtime is absent, null or 0
contributes a `content` row and no `movie_details` row. -/
theorem transform_details_requires_truthy_runtime (gm cm : String → Option Nat)
    (loc : List String) (movies : List Movie) :
    (transform gm cm loc movies).content = movies.map contentRowOf ∧
    (transform gm cm loc movies).movie_details =
      (movies.filter (fun m => natTruthy m.runtime)).map
        (fun m => { content_id := m.id, duration_minutes := m.runtime.getD 0,
                    cinema_release_date := m.release_date,
                    digital_release_date := none }) := by
  constructor
  · simpa using transform_content_spec gm cm loc emptyMovieRowSet movies
  · have h := transform_details_spec gm cm loc emptyMovieRowSet movies
    rw [flatMap_movieDetailsRowsOf] at h
    simpa using h

/-! ## Direct discovery (claim C8) -/

theorem directCollectItems_all (target : Nat) (items : List Nat) (acc : List Nat)
    (h : acc.length + items.length ≤ target) :
    directCollectItems target acc items = acc ++ items := by
  induction items generalizing acc with
  | nil => simp [directCollectItems]
  | cons m rest ih =>
    simp only [List.length_cons] at h
    simp only [directCollectItems]
    by_cases hb : target ≤ (acc ++ [m]).length
    · rw [if_pos hb]
      have hb' : target ≤ acc.length + 1 := by simpa using hb
      have hrest : rest = [] := List.length_eq_zero.mp (by omega)
      subst hrest
      simp
    · rw [if_neg hb, ih (acc ++ [m])
        (by simp only [List.length_append, List.length_cons, List.length_nil]; omega)]
      simp

theorem directCollectItems_fill (target : Nat) (items : List Nat) (acc : List Nat)
    (hlt : acc.length < target) (hge : target ≤ acc.length + items.length) :
    directCollectItems target acc items =
      acc ++ items.take (target - acc.length) := by
  induction items generalizing acc with
  | nil => simp at hge; omega
  | cons m rest ih =>
    simp only [List.length_cons] at hge
    simp only [directCollectItems]
    by_cases hb : target ≤ (acc ++ [m]).length
    · rw [if_pos hb]
      have hb' : target ≤ acc.length + 1 := by simpa using hb
      have ht : target - acc.length = 1 := by omega
      rw [ht]
      rfl
    · rw [if_neg hb]
      have hb' : ¬ target ≤ acc.length + 1 := by simpa using hb
      rw [ih (acc ++ [m])
        (by simp only [List.length_append, List.length_cons, List.length_nil]; omega)
        (by simp only [List.length_append, List.length_cons, List.length_nil]; omega)]
      have h1 : target - acc.length = (target - (acc.length + 1)) + 1 := by omega
      rw [h1, List.take_succ_cons]
      simp

/-- C8: under the Direct strategy with `target_count = 25`, exactly
`pages_needed = 2` page-fetch tasks are issued, and — both pages returning
the full 20 results — exactly 25 ids are returned: all 20 of page 1 and
only the first 5 of page 2. -/
theorem direct_scenario_target_25 (api : Nat → Option Page) (p1 p2 : Page)
    (h1 : api 1 = some p1) (h2 : api 2 = some p2)
    (l1 : p1.results.length = 20) (l2 : p2.results.length = 20) :
    directPagesFetched 25 = 2 ∧
    DiscoverStrategy.get_movie_ids api 25 = p1.results ++ p2.results.take 5 ∧
    (DiscoverStrategy.get_movie_ids api 25).length = 25 := by
  have hpages : directPagesFetched 25 = 2 := by decide
  have hrange : List.range' 1 (directPagesFetched 25) = [1, 2] := by
    rw [hpages]
    rfl
  have hstep1 : directCollectItems 25 [] p1.results = p1.results := by
    simpa using directCollectItems_all 25 p1.results [] (by simp [l1])
  have hstep2 : directCollectItems 25 p1.results p2.results =
      p1.results ++ p2.results.take 5 := by
    have := directCollectItems_fill 25 p2.results p1.results
      (by simp [l1]) (by simp [l1, l2])
    simpa [l1] using this
  have hcollect : directCollectPages 25 [] [api 1, api 2] =
      p1.results ++ p2.results.take 5 := by
    rw [h1, h2, directCollectPages]
    simp only [hstep1, l1]
    rw [if_neg (by omega), directCollectPages]
    simp only [hstep2]
    rw [if_pos (by simp [l1, l2, List.length_take])]
  have hids : DiscoverStrategy.get_movie_ids api 25 =
      p1.results ++ p2.results.take 5 := by
    show (directCollectPages (directTargetCount 25) []
        ((List.range' 1 (directPagesFetched 25)).map api)).take (directTargetCount 25) =
      p1.results ++ p2.results.take 5
    rw [hrange, show directTargetCount 25 = 25 from by decide]
    simp only [List.map_cons, List.map_nil]
    rw [hcollect]
    exact List.take_of_length_le (by simp [l1, l2, List.length_take])
  refine ⟨hpages, hids, ?_⟩
  rw [hids]
  simp [l1, l2, List.length_take]

/-! ## Segmented discovery (claims C2 and C3) -/

theorem SegInv.base (seen acc : List Nat) (hnd : acc.Nodup)
    (hsub : ∀ a ∈ acc, a ∈ seen) : SegInv seen acc (seen, acc) :=
  ⟨hnd, hsub, fun _ hs => hs, fun _ ha => Or.inl ha⟩

theorem SegInv.comp {seen acc : List Nat} {mid st : List Nat × List Nat}
    (h2 : SegInv seen acc mid) (h1 : SegInv mid.1 mid.2 st) :
    SegInv seen acc st := by
  obtain ⟨hn1, hsub1, hgrow1, hfresh1⟩ := h1
  obtain ⟨_, _, hgrow2, hfresh2⟩ := h2
  refine ⟨hn1, hsub1, fun s hs => hgrow1 s (hgrow2 s hs), fun a ha => ?_⟩
  rcases hfresh1 a ha with h | h
  · exact hfresh2 a h
  · exact Or.inr fun hseen => h (hgrow2 a hseen)

theorem segCollectItems_inv (maxPer : Nat) (items : List Nat) :
    ∀ seen acc, acc.Nodup → (∀ a ∈ acc, a ∈ seen) →
      SegInv seen acc (segCollectItems maxPer seen acc items) := by
  induction items with
  | nil => exact fun seen acc hnd hsub => SegInv.base seen acc hnd hsub
  | cons m rest ih =>
    intro seen acc hnd hsub
    simp only [segCollectItems]
    by_cases hm : m ∈ seen
    · rw [if_pos hm]
      by_cases hb : maxPer ≤ acc.length
      · rw [if_pos hb]
        exact SegInv.base seen acc hnd hsub
      · rw [if_neg hb]
        exact ih seen acc hnd hsub
    · rw [if_neg hm]
      have hmacc : m ∉ acc := fun hc => hm (hsub m hc)
      have hnd2 : (acc ++ [m]).Nodup := by
        rw [List.nodup_append]
        exact ⟨hnd, List.nodup_singleton m,
          fun a ha hb => by rw [List.mem_singleton.mp hb] at ha; exact hmacc ha⟩
      have hsub2 : ∀ a ∈ acc ++ [m], a ∈ m :: seen := by
        intro a ha
        rcases List.mem_append.mp ha with h | h
        · exact List.mem_cons_of_mem m (hsub a h)
        · rw [List.mem_singleton.mp h]; exact List.mem_cons_self m seen
      have hstep : SegInv seen acc (m :: seen, acc ++ [m]) := by
        refine ⟨hnd2, hsub2, fun s hs => List.mem_cons_of_mem m hs, fun a ha => ?_⟩
        rcases List.mem_append.mp ha with h | h
        · exact Or.inl h
        · rw [List.mem_singleton.mp h]; exact Or.inr hm
      by_cases hb : maxPer ≤ (acc ++ [m]).length
      · rw [if_pos hb]
        exact hstep
      · rw [if_neg hb]
        exact hstep.comp (ih (m :: seen) (acc ++ [m]) hnd2 hsub2)

theorem segCollectPages_inv (maxPer : Nat) (pages : List Page) :
    ∀ seen acc, acc.Nodup → (∀ a ∈ acc, a ∈ seen) →
      SegInv seen acc (segCollectPages maxPer seen acc pages) := by
  induction pages with
  | nil => exact fun seen acc hnd hsub => SegInv.base seen acc hnd hsub
  | cons p rest ih =>
    intro seen acc hnd hsub
    simp only [segCollectPages]
    have hitems := segCollectItems_inv maxPer p.results seen acc hnd hsub
    by_cases hb :
        maxPer ≤ (segCollectItems maxPer seen acc p.results).2.length
    · rw [if_pos hb]
      exact hitems
    · rw [if_neg hb]
      exact hitems.comp (ih _ _ hitems.1 hitems.2.1)

theorem fetchYear_inv (api : Nat → Nat → Option Page) (seen : List Nat)
    (year maxPer : Nat) : SegInv seen [] (fetchYear api seen year maxPer) := by
  rcases h : api year 1 with _ | fp
  · simp only [fetchYear, h]
    exact SegInv.base seen [] List.nodup_nil (by simp)
  · simp only [fetchYear, h]
    exact segCollectPages_inv maxPer _ seen [] List.nodup_nil (by simp)

theorem segLoop_nodup (api : Nat → Nat → Option Page) (target mpy : Nat)
    (years : List Nat) :
    ∀ seen acc, acc.Nodup → (∀ a ∈ acc, a ∈ seen) →
      (segLoop api target mpy seen acc years).Nodup := by
  induction years with
  | nil => exact fun _ _ hnd _ => hnd
  | cons y rest ih =>
    intro seen acc hnd hsub
    simp only [segLoop]
    by_cases hb : target ≤ acc.length
    · rw [if_pos hb]; exact hnd
    · rw [if_neg hb]
      obtain ⟨hn, hsubst, hgrow, hfresh⟩ :=
        fetchYear_inv api seen y (min mpy (target - acc.length))
      apply ih
      · rw [List.nodup_append]
        refine ⟨hnd, hn, fun a ha hb2 => ?_⟩
        rcases hfresh a hb2 with h | h
        · exact (List.not_mem_nil a) h
        · exact h (hsub a ha)
      · intro a ha
        rcases List.mem_append.mp ha with h | h
        · exact hgrow a (hsub a h)
        · exact hsubst a h

/-- C2: a segmented discovery run never returns the same id twice — the
process-wide seen-id set makes the output duplicate-free even when the same
entity appears under more than one year partition (the hypothesis only
rules out an empty partition list, on which the source would divide by
zero). -/
theorem segmented_ids_nodup (api : Nat → Nat → Option Page)
    (target_count year_from year_to : Nat) (_hyears : year_from ≤ year_to) :
    (DiscoverSegmentedStrategy.get_movie_ids api target_count year_from
      year_to).Nodup :=
  (List.take_sublist _ _).nodup
    (segLoop_nodup api target_count _ (getYearSegments year_from year_to) [] []
      List.nodup_nil (by simp))

/-- C2, witness: the two-partition oracle returns duplicate-free ids. -/
theorem segmented_ids_nodup_witness :
    (DiscoverSegmentedStrategy.get_movie_ids apiTwoYears 100 2020 2021).Nodup :=
  segmented_ids_nodup apiTwoYears 100 2020 2021 (by decide)

set_option maxRecDepth 40000 in
/-- C3, counterexample: with 2 partitions (2020, 2021) and
`target_count = 100` the per-partition share is 50; the 2020 partition only
has 30 entities, and the run returns 80 ids, NOT the claimed 100 — even
though the 2021 partition alone could have filled the whole target (second
conjunct). The shortfall is not absorbed because `movies_per_year` is never
recomputed. -/
theorem segmented_shortfall_not_absorbed :
    (DiscoverSegmentedStrategy.get_movie_ids apiTwoYears 100 2020 2021).length
        = 80 ∧
    (DiscoverSegmentedStrategy.get_movie_ids apiTwoYears 100 2021 2021).length
        = 100 := by
  decide

set_option maxRecDepth 40000 in
/-- C3, amended: the per-partition share `ceil(target_count / numYears)` is
computed once, before the loop, and each partition is capped at
`min(share, remainingTarget)`; a partition shortfall is NOT absorbed by the
remaining partitions, so the scenario run returns exactly the 50 capped ids
of 2021 followed by the 30 available ids of 2020. -/
theorem segmented_share_fixed_up_front :
    DiscoverSegmentedStrategy.get_movie_ids apiTwoYears 100 2020 2021 =
      List.range' 2000 50 ++ List.range' 1000 30 := by
  decide

/-- C8, witness: the scenario at a concrete oracle whose page n carries ids
100n … 100n+19. -/
theorem direct_scenario_target_25_witness :
    directPagesFetched 25 = 2 ∧
    DiscoverStrategy.get_movie_ids
        (fun n => some ⟨500, List.range' (n * 100) 20⟩) 25 =
      List.range' 100 20 ++ (List.range' 200 20).take 5 ∧
    (DiscoverStrategy.get_movie_ids
        (fun n => some ⟨500, List.range' (n * 100) 20⟩) 25).length = 25 :=
  direct_scenario_target_25 (fun n => some ⟨500, List.range' (n * 100) 20⟩)
    ⟨500, List.range' 100 20⟩ ⟨500, List.range' 200 20⟩ rfl rfl (by decide) (by decide)

/-! ## Output ceilings of the discovery strategies (claim C9) -/

theorem segCollectItems_len (maxPer : Nat) (items : List Nat) :
    ∀ seen acc, (segCollectItems maxPer seen acc items).2.length ≤
      acc.length + items.length := by
  induction items with
  | nil => intro seen acc; simp [segCollectItems]
  | cons m rest ih =>
    intro seen acc
    simp only [segCollectItems, List.length_cons]
    by_cases hm : m ∈ seen
    · rw [if_pos hm]
      by_cases hb : maxPer ≤ acc.length
      · rw [if_pos hb]
        exact Nat.le_add_right _ _
      · rw [if_neg hb]
        exact le_trans (ih seen acc) (by omega)
    · rw [if_neg hm]
      by_cases hb : maxPer ≤ (acc ++ [m]).length
      · rw [if_pos hb]
        exact le_trans (Nat.le_refl (acc ++ [m]).length)
          (by simp only [List.length_append, List.length_cons, List.length_nil]; omega)
      · rw [if_neg hb]
        exact le_trans (ih (m :: seen) (acc ++ [m]))
          (by simp only [List.length_append, List.length_cons, List.length_nil]; omega)

theorem segCollectPages_len (maxPer : Nat) (pages : List Page) :
    ∀ seen acc, (∀ q ∈ pages, q.results.length ≤ ITEMS_PER_PAGE) →
      (segCollectPages maxPer seen acc pages).2.length ≤
        acc.length + ITEMS_PER_PAGE * pages.length := by
  induction pages with
  | nil => intro seen acc _; simp [segCollectPages]
  | cons p rest ih =>
    intro seen acc hq
    simp only [segCollectPages, List.length_cons]
    have hp : p.results.length ≤ ITEMS_PER_PAGE := hq p (List.mem_cons_self p rest)
    have hst := segCollectItems_len maxPer p.results seen acc
    by_cases hb :
        maxPer ≤ (segCollectItems maxPer seen acc p.results).2.length
    · rw [if_pos hb]
      simp only [ITEMS_PER_PAGE] at *
      omega
    · rw [if_neg hb]
      have := ih (segCollectItems maxPer seen acc p.results).1
        (segCollectItems maxPer seen acc p.results).2
        (fun q hmem => hq q (List.mem_cons_of_mem p hmem))
      simp only [ITEMS_PER_PAGE] at *
      omega

theorem fetchYear_len (api : Nat → Nat → Option Page) (seen : List Nat)
    (year maxPer : Nat)
    (hapi : ∀ y p pg, api y p = some pg → pg.results.length ≤ ITEMS_PER_PAGE) :
    (fetchYear api seen year maxPer).2.length ≤ ITEMS_PER_PAGE * MAX_PAGES := by
  rcases h : api year 1 with _ | fp
  · simp [fetchYear, h]
  · simp only [fetchYear, h]
    set pn := min ((maxPer + ITEMS_PER_PAGE - 1) / ITEMS_PER_PAGE)
      (min fp.total_pages MAX_PAGES) with hpn
    set allPages := if 1 < pn then
        fp :: (List.range' 2 (pn - 1)).filterMap (fun p => api year p)
      else [fp] with hap
    have hlen : allPages.length ≤ MAX_PAGES := by
      rw [hap]
      by_cases h1 : 1 < pn
      · rw [if_pos h1]
        have hfm := List.length_filterMap_le (fun p => api year p)
          (List.range' 2 (pn - 1))
        have hr : (List.range' 2 (pn - 1)).length = pn - 1 := by simp
        have hpnle : pn ≤ MAX_PAGES := le_trans (Nat.min_le_right _ _)
          (Nat.min_le_right _ _)
        simp only [List.length_cons]
        simp only [MAX_PAGES] at *
        omega
      · rw [if_neg h1]
        simp [MAX_PAGES]
    have hmem : ∀ q ∈ allPages, q.results.length ≤ ITEMS_PER_PAGE := by
      intro q hqmem
      rw [hap] at hqmem
      by_cases h1 : 1 < pn
      · rw [if_pos h1] at hqmem
        rcases List.mem_cons.mp hqmem with h | h
        · exact h ▸ hapi year 1 fp ‹api year 1 = some fp›
        · obtain ⟨p, _, hp⟩ := List.mem_filterMap.mp h
          exact hapi year p q hp
      · rw [if_neg h1] at hqmem
        rw [List.mem_singleton.mp hqmem]
        exact hapi year 1 fp ‹api year 1 = some fp›
    have := segCollectPages_len maxPer allPages seen [] hmem
    have hmul : ITEMS_PER_PAGE * allPages.length ≤ ITEMS_PER_PAGE * MAX_PAGES :=
      Nat.mul_le_mul_left _ hlen
    simp only [List.length_nil] at this
    omega

theorem segLoop_len (api : Nat → Nat → Option Page) (target mpy : Nat)
    (years : List Nat)
    (hapi : ∀ y p pg, api y p = some pg → pg.results.length ≤ ITEMS_PER_PAGE) :
    ∀ seen acc, (segLoop api target mpy seen acc years).length ≤
      acc.length + ITEMS_PER_PAGE * MAX_PAGES * years.length := by
  induction years with
  | nil => intro seen acc; simp [segLoop]
  | cons y rest ih =>
    intro seen acc
    simp only [segLoop, List.length_cons]
    by_cases hb : target ≤ acc.length
    · rw [if_pos hb]; omega
    · rw [if_neg hb]
      have h1 := fetchYear_len api seen y (min mpy (target - acc.length)) hapi
      have h2 := ih (fetchYear api seen y (min mpy (target - acc.length))).1
        (acc ++ (fetchYear api seen y (min mpy (target - acc.length))).2)
      simp only [List.length_append] at h2
      simp only [ITEMS_PER_PAGE, MAX_PAGES] at *
      omega

theorem flatMap_results_len (K : Nat) (ps : List Page)
    (h : ∀ q ∈ ps, q.results.length ≤ K) :
    (ps.flatMap Page.results).length ≤ K * ps.length := by
  induction ps with
  | nil => simp
  | cons q rest ih =>
    simp only [List.flatMap_cons, List.length_append, List.length_cons,
      Nat.mul_succ]
    have hq := h q (List.mem_cons_self q rest)
    have := ih fun r hr => h r (List.mem_cons_of_mem q hr)
    omega

theorem seriesGroupsGo_flatten (n : Nat) (l : List Nat) :
    ∀ cur, (seriesGroupsGo n cur l).flatten = cur ++ l := by
  induction l with
  | nil =>
    intro cur
    simp only [seriesGroupsGo]
    by_cases h : cur.isEmpty
    · rw [if_pos h, List.isEmpty_iff.mp h]
      rfl
    · rw [if_neg h]
      simp
  | cons p ps ih =>
    intro cur
    simp only [seriesGroupsGo]
    by_cases h : n ≤ (cur ++ [p]).length
    · rw [if_pos h]
      simp [List.flatten, ih]
    · rw [if_neg h]
      simp [ih]

theorem seriesCollectGroups_len (api : Nat → Option Page) (target : Nat)
    (hapi : ∀ p pg, api p = some pg → pg.results.length ≤ ITEMS_PER_PAGE)
    (gs : List (List Nat)) :
    ∀ acc, (seriesCollectGroups api target acc gs).length ≤
      acc.length + ITEMS_PER_PAGE * gs.flatten.length := by
  induction gs with
  | nil => intro acc; simp [seriesCollectGroups]
  | cons g rest ih =>
    intro acc
    simp only [seriesCollectGroups, List.flatten_cons, List.length_append]
    have hpg : ∀ q ∈ g.filterMap api, q.results.length ≤ ITEMS_PER_PAGE := by
      intro q hq
      obtain ⟨p, _, hp⟩ := List.mem_filterMap.mp hq
      exact hapi p q hp
    have h1 := flatMap_results_len ITEMS_PER_PAGE (g.filterMap api) hpg
    have h2 : (g.filterMap api).length ≤ g.length := List.length_filterMap_le _ _
    have h3 : ITEMS_PER_PAGE * (g.filterMap api).length ≤ ITEMS_PER_PAGE * g.length :=
      Nat.mul_le_mul_left _ h2
    by_cases hb : target ≤
        acc.length + ((g.filterMap api).flatMap Page.results).length
    · rw [if_pos hb]
      simp only [List.length_append, ITEMS_PER_PAGE] at *
      omega
    · rw [if_neg hb]
      have := ih (acc ++ (g.filterMap api).flatMap Page.results)
      simp only [List.length_append, ITEMS_PER_PAGE] at *
      omega

/-- C9: every discovery strategy returns at most `targetCount` ids, and the
paginated strategies return at most `ITEMS_PER_PAGE * MAX_PAGES` ids per
partition (one partition for Direct and the series discover, one per year
for Segmented) whenever the upstream pages respect the fixed page size. -/
theorem discovery_output_ceilings (apiD : Nat → Option Page) (tcD : Nat)
    (apiS : Nat → Nat → Option Page) (tcS yf yt : Nat)
    (apiT : Nat → Option Page) (tcT : Nat) (tcE : Nat) (minPop : ℚ)
    (ea ev : Bool) (lines : List (Option ExportItem)) :
    (DiscoverStrategy.get_movie_ids apiD tcD).length ≤ tcD ∧
    (DiscoverStrategy.get_movie_ids apiD tcD).length ≤
      ITEMS_PER_PAGE * MAX_PAGES ∧
    (DiscoverSegmentedStrategy.get_movie_ids apiS tcS yf yt).length ≤ tcS ∧
    ((∀ y p pg, apiS y p = some pg → pg.results.length ≤ ITEMS_PER_PAGE) →
      (DiscoverSegmentedStrategy.get_movie_ids apiS tcS yf yt).length ≤
        ITEMS_PER_PAGE * MAX_PAGES * (getYearSegments yf yt).length) ∧
    (SeriesDiscoverStrategy.get_series_ids apiT tcT).length ≤ tcT ∧
    ((∀ p pg, apiT p = some pg → pg.results.length ≤ ITEMS_PER_PAGE) →
      (SeriesDiscoverStrategy.get_series_ids apiT tcT).length ≤
        ITEMS_PER_PAGE * MAX_PAGES) ∧
    (ExportStrategy.get_movie_ids tcE minPop ea ev lines).length ≤ tcE := by
  refine ⟨?_, ?_, ?_, ?_, ?_, ?_, ?_⟩
  · exact le_trans (List.length_take_le _ _) (Nat.min_le_left _ _)
  · exact le_trans (List.length_take_le _ _)
      (le_trans (Nat.min_le_right _ _) (by simp [MAX_PAGES, ITEMS_PER_PAGE]))
  · exact List.length_take_le _ _
  · intro hapi
    have h1 := segLoop_len apiS tcS
      ((tcS + (getYearSegments yf yt).length - 1) / (getYearSegments yf yt).length)
      (getYearSegments yf yt) hapi [] []
    simp only [List.length_nil, Nat.zero_add] at h1
    exact le_trans (List.length_take_le' _ _) h1
  · exact List.length_take_le _ _
  · intro hapi
    have h1 := seriesCollectGroups_len apiT tcT hapi
      (seriesGroupsGo 50 []
        (List.range' 1 (min ((tcT + ITEMS_PER_PAGE - 1) / ITEMS_PER_PAGE) MAX_PAGES)))
      []
    rw [seriesGroupsGo_flatten] at h1
    simp only [List.length_nil, Nat.zero_add, List.nil_append,
      List.length_range'] at h1
    have h2 : ITEMS_PER_PAGE *
        (min ((tcT + ITEMS_PER_PAGE - 1) / ITEMS_PER_PAGE) MAX_PAGES) ≤
        ITEMS_PER_PAGE * MAX_PAGES :=
      Nat.mul_le_mul_left _ (Nat.min_le_right _ _)
    exact le_trans (List.length_take_le' _ _) (le_trans h1 h2)
  · simp only [ExportStrategy.get_movie_ids, List.length_map]
    exact List.length_take_le _ _

/-- C9, witness: the ceilings at concrete oracles whose pages respect the
20-item page size. -/
theorem discovery_output_ceilings_witness :
    (DiscoverStrategy.get_movie_ids (fun _ => some ⟨1, [1, 2]⟩) 7).length ≤ 7 ∧
    (DiscoverStrategy.get_movie_ids (fun _ => some ⟨1, [1, 2]⟩) 7).length ≤
      ITEMS_PER_PAGE * MAX_PAGES ∧
    (DiscoverSegmentedStrategy.get_movie_ids apiTwoYears 100 2020 2021).length
      ≤ 100 ∧
    (DiscoverSegmentedStrategy.get_movie_ids apiTwoYears 100 2020 2021).length
      ≤ ITEMS_PER_PAGE * MAX_PAGES * (getYearSegments 2020 2021).length ∧
    (SeriesDiscoverStrategy.get_series_ids (fun p => some ⟨1, [p]⟩) 5).length
      ≤ 5 ∧
    (SeriesDiscoverStrategy.get_series_ids (fun p => some ⟨1, [p]⟩) 5).length
      ≤ ITEMS_PER_PAGE * MAX_PAGES ∧
    (ExportStrategy.get_movie_ids 3 10 true true
      [some ⟨1, false, false, 20⟩, none, some ⟨2, false, false, 30⟩]).length ≤ 3 := by
  have h := discovery_output_ceilings (fun _ => some ⟨1, [1, 2]⟩) 7 apiTwoYears
    100 2020 2021 (fun p => some ⟨1, [p]⟩) 5 3 10 true true
    [some ⟨1, false, false, 20⟩, none, some ⟨2, false, false, 30⟩]
  refine ⟨h.1, h.2.1, h.2.2.1, h.2.2.2.1 ?_, h.2.2.2.2.1, h.2.2.2.2.2.1 ?_,
    h.2.2.2.2.2.2⟩
  · intro y p pg hpg
    rcases hpg2 : apiTwoYears y p with _ | q
    · rw [hpg2] at hpg; exact absurd hpg (by simp)
    · rw [hpg2] at hpg
      obtain rfl : q = pg := by injection hpg
      revert hpg2
      unfold apiTwoYears
      by_cases h2021 : y = 2021
      · rw [if_pos h2021]
        intro hq
        obtain rfl : (⟨500, List.range' (2000 + (p - 1) * 20) 20⟩ : Page) = q := by
          injection hq
        simp [ITEMS_PER_PAGE]
      · rw [if_neg h2021]
        by_cases h2020 : y = 2020
        · rw [if_pos h2020]
          by_cases hp1 : p = 1
          · rw [if_pos hp1]
            intro hq
            obtain rfl : (⟨2, List.range' 1000 20⟩ : Page) = q := by injection hq
            simp [ITEMS_PER_PAGE]
          · rw [if_neg hp1]
            by_cases hp2 : p = 2
            · rw [if_pos hp2]
              intro hq
              obtain rfl : (⟨2, List.range' 1020 10⟩ : Page) = q := by injection hq
              simp [ITEMS_PER_PAGE]
            · rw [if_neg hp2]
              intro hq
              exact absurd hq (by simp)
        · rw [if_neg h2020]
          intro hq
          exact absurd hq (by simp)
  · intro p pg hpg
    obtain rfl : (⟨1, [p]⟩ : Page) = pg := by injection hpg
    simp [ITEMS_PER_PAGE]

/-! ## Hierarchical loader: episode foreign keys (claim C6) -/

/-- C6: the episode stage of `SeriesLoader._load_all_tables` never inserts a
child row whose parent natural key is missing from the generated-key map —
every inserted row carries a `season_id` actually stored in the map under
some input row's `(content_id, season_number)` key — and the number of
dropped rows is exactly the number of input rows whose parent lookup is not
truthy, so each such row increments the drop count by exactly 1. -/
theorem episode_fk_integrity (season_id_map : List ((Nat × Nat) × Nat))
    (episodes : List EpisodeRow) :
    (∀ o ∈ episodesWithSeasonIds season_id_map episodes,
      ∃ r ∈ episodes,
        lookupSeasonId season_id_map r.content_id r.season_number =
          some o.season_id) ∧
    episodes.length = (episodesWithSeasonIds season_id_map episodes).length +
      (episodes.filter (fun r =>
        !natTruthy (lookupSeasonId season_id_map r.content_id
          r.season_number))).length ∧
    episodeDropCount season_id_map episodes =
      (episodes.filter (fun r =>
        !natTruthy (lookupSeasonId season_id_map r.content_id
          r.season_number))).length := by
  have htruthy : ∀ o : Option Nat, natTruthy o = true → o = some (o.getD 0) := by
    intro o h
    cases o with
    | none => exact absurd h (by simp [natTruthy])
    | some n => rfl
  have hmain : ∀ es : List EpisodeRow,
      (∀ o ∈ episodesWithSeasonIds season_id_map es,
        ∃ r ∈ es, lookupSeasonId season_id_map r.content_id r.season_number =
          some o.season_id) ∧
      es.length = (episodesWithSeasonIds season_id_map es).length +
        (es.filter (fun r =>
          !natTruthy (lookupSeasonId season_id_map r.content_id
            r.season_number))).length := by
    intro es
    induction es with
    | nil => exact ⟨fun o ho => absurd ho (List.not_mem_nil o), rfl⟩
    | cons r t ih =>
      obtain ⟨ihmem, ihlen⟩ := ih
      rcases ht : natTruthy
          (lookupSeasonId season_id_map r.content_id r.season_number)
        with _ | _
      · constructor
        · intro o ho
          rw [episodesWithSeasonIds, List.filterMap_cons] at ho
          simp only [ht, if_neg Bool.false_ne_true] at ho
          obtain ⟨r2, hr2, h2⟩ := ihmem o ho
          exact ⟨r2, List.mem_cons_of_mem r hr2, h2⟩
        · rw [episodesWithSeasonIds, List.filterMap_cons, List.filter_cons]
          simp only [ht, if_neg Bool.false_ne_true, Bool.not_false, if_pos]
          rw [episodesWithSeasonIds] at ihlen
          simp only [List.length_cons, ihlen]
          omega
      · constructor
        · intro o ho
          rw [episodesWithSeasonIds, List.filterMap_cons] at ho
          simp only [ht, if_pos] at ho
          rcases List.mem_cons.mp ho with h | h
          · refine ⟨r, List.mem_cons_self r t, ?_⟩
            rw [htruthy _ ht, h]
          · obtain ⟨r2, hr2, h2⟩ := ihmem o h
            exact ⟨r2, List.mem_cons_of_mem r hr2, h2⟩
        · rw [episodesWithSeasonIds, List.filterMap_cons, List.filter_cons]
          simp only [ht, if_pos, Bool.not_true, if_neg Bool.false_ne_true]
          rw [episodesWithSeasonIds] at ihlen
          simp only [List.length_cons, ihlen]
          omega
  obtain ⟨hmem, hlen⟩ := hmain episodes
  refine ⟨hmem, hlen, ?_⟩
  rw [episodeDropCount]
  omega

/-- C6, witness: with season (5, 99) absent from the generated-key map, the
episode row for (contentID = 5, seasonNumber = 99) is dropped — the only
inserted row carries the generated key 101 of season (5, 1) — and the drop
count is exactly 1. -/
theorem episode_fk_integrity_witness :
    (∃ r ∈ season99Episodes,
      lookupSeasonId season99Map r.content_id r.season_number = some 101) ∧
    season99Episodes.length =
      (episodesWithSeasonIds season99Map season99Episodes).length +
      (season99Episodes.filter (fun r =>
        !natTruthy (lookupSeasonId season99Map r.content_id
          r.season_number))).length ∧
    lookupSeasonId season99Map 5 99 = none ∧
    episodesWithSeasonIds season99Map season99Episodes =
      [{ season_id := 101, episode_number := 1, duration_minutes := some 42,
         air_date := none }] ∧
    episodeDropCount season99Map season99Episodes = 1 := by
  have h := episode_fk_integrity season99Map season99Episodes
  refine ⟨h.1 ⟨101, 1, some 42, none⟩ (by decide), h.2.1, by decide, by decide,
    (h.2.2).trans (by decide)⟩

/-! ## Loader transaction semantics (claim C7) -/

theorem runBatches_error {α : Type} (l : List (Except Unit (List α)))
    (h : Except.error () ∈ l) : runBatches l = Except.error () := by
  induction l with
  | nil => exact absurd h (List.not_mem_nil _)
  | cons c rest ih =>
    rcases List.mem_cons.mp h with hc | hc
    · rw [← hc]; rfl
    · rcases c with e | ws
      · cases e; rfl
      · simp only [runBatches, ih hc]

theorem runBatches_ok {α : Type} (l : List (Except Unit (List α)))
    (h : ∀ c ∈ l, c ≠ Except.error ()) :
    runBatches l = Except.ok (l.filterMap okWrites).flatten := by
  induction l with
  | nil => rfl
  | cons c rest ih =>
    rcases c with e | ws
    · cases e
      exact absurd rfl (h _ (List.mem_cons_self _ _))
    · rw [runBatches, ih fun c hc => h c (List.mem_cons_of_mem _ hc)]
      simp [okWrites]

/-- C7: one loader invocation is all-or-nothing. When any chunk of any
table raises, `__exit__` rolls back and the committed database is exactly
what it was before the invocation — every table loaded earlier in the run
included; when no chunk raises, the single transaction commits all writes
of all tables at exit. -/
theorem loader_all_or_nothing {α : Type} (db : List α)
    (tables : List (List (Except Unit (List α)))) :
    ((∃ t ∈ tables, Except.error () ∈ t) → loaderRun db tables = db) ∧
    ((∀ t ∈ tables, ∀ c ∈ t, c ≠ Except.error ()) →
      loaderRun db tables =
        db ++ (tables.map (fun t => (t.filterMap okWrites).flatten)).flatten) := by
  constructor
  · rintro ⟨t, ht, hc⟩
    have h1 : runBatches t = Except.error () := runBatches_error t hc
    have h2 : Except.error () ∈ tables.map runBatches :=
      h1 ▸ List.mem_map_of_mem runBatches ht
    rw [loaderRun, runBatches_error _ h2]
    rfl
  · intro hok
    have h1 : ∀ c ∈ tables.map runBatches, c ≠ Except.error () := by
      intro c hc
      obtain ⟨t, ht, rfl⟩ := List.mem_map.mp hc
      rw [runBatches_ok t (hok t ht)]
      exact fun h => Except.noConfusion h
    rw [loaderRun, runBatches_ok _ h1, loaderExit]
    congr 1
    have h2 : ∀ ts : List (List (Except Unit (List α))),
        (∀ t ∈ ts, ∀ c ∈ t, c ≠ Except.error ()) →
        (ts.map runBatches).filterMap okWrites =
          ts.map fun t => (t.filterMap okWrites).flatten := by
      intro ts hts
      induction ts with
      | nil => rfl
      | cons t rest ih =>
        rw [List.map_cons, List.filterMap_cons, List.map_cons,
          runBatches_ok t (hts t (List.mem_cons_self _ _))]
        rw [ih fun u hu => hts u (List.mem_cons_of_mem _ hu)]
        rfl
    rw [h2 tables hok]

/-- C7, witness: a failing chunk in the second table rolls back the whole
invocation (the first table included); the same run without the failure
commits every write at exit. -/
theorem loader_all_or_nothing_witness :
    loaderRun [1, 2] [[Except.ok [3]], [Except.ok [4], Except.error ()]] =
      [1, 2] ∧
    loaderRun [1, 2] [[Except.ok [3]], [Except.ok [4], Except.ok [5]]] =
      [1, 2, 3, 4, 5] := by
  constructor
  · exact (loader_all_or_nothing [1, 2] _).1
      ⟨[Except.ok [4], Except.error ()], by simp, by simp⟩
  · exact ((loader_all_or_nothing [1, 2] _).2 (by
      intro t ht c hc
      simp only [List.mem_cons, List.not_mem_nil, or_false] at ht
      rcases ht with rfl | rfl <;>
        simp only [List.mem_cons, List.not_mem_nil, or_false] at hc <;>
        rcases hc with rfl | rfl <;> simp)).trans (by decide)

end TmdbEtl
